import Mathlib

/-!
Verification of the `ike` repository (an IKEv2 initiator): a shallow
embedding of `protocol.py` and `ike/payloads.py` over byte lists
(`List Nat`, each entry a byte value), together with theorems settling
the specification's claims about key derivation, packet framing, the
receive path and the payload codec.

Modules that `protocol.py` imports but that are not part of the
repository sources (`util.prf`, `util.dh`, `util.cipher`, `const`,
`proposal`, the top-level `payloads`) are modelled from the
specification, and each such definition says so in its doc comment.
-/

set_option maxRecDepth 100000

namespace Ike

/-- A byte string: a list of byte values (each `< 256` on well-formed data). -/
abbrev Bytes := List Nat

/-- Truncate to a 32-bit word, as Python's `& 0xffffffff`. -/
def w32 (n : Nat) : Nat := n % 4294967296

/-- 16-bit big-endian encoding, as `struct.pack("!H", n)` (values `< 2^16`). -/
def be16 (n : Nat) : Bytes := [n / 256 % 256, n % 256]

/-- 32-bit big-endian encoding, as `struct.pack("!I", n)`. -/
def be32 (n : Nat) : Bytes :=
  [n / 16777216 % 256, n / 65536 % 256, n / 256 % 256, n % 256]

/-- 64-bit big-endian encoding, as `struct.pack("!Q", n)`. -/
def be64 (n : Nat) : Bytes :=
  [n / 72057594037927936 % 256, n / 281474976710656 % 256,
   n / 1099511627776 % 256, n / 4294967296 % 256,
   n / 16777216 % 256, n / 65536 % 256, n / 256 % 256, n % 256]

/-- The value denoted by a 2-byte big-endian field at offset `i` of a buffer
(0 when the buffer is too short). -/
def be16At (b : Bytes) (i : Nat) : Nat :=
  match b.drop i with
  | b0 :: b1 :: _ => 256 * b0 + b1
  | _ => 0

/-- The value denoted by a 4-byte big-endian field at offset `i` of a buffer
(0 when the buffer is too short). -/
def be32At (b : Bytes) (i : Nat) : Nat :=
  match b.drop i with
  | b0 :: b1 :: b2 :: b3 :: _ => ((b0 * 256 + b1) * 256 + b2) * 256 + b3
  | _ => 0

/- ### SHA-256 (the hash behind the suite's PRF and integrity MAC)

Modelled from the spec: the repository's `util/prf.py` is not in `src/`;
the spec fixes the PRF and integrity function to HMAC-SHA-256
(Secs. 4.1, 6), so SHA-256 is implemented here in full (FIPS 180-4). -/

/-- Rotate a 32-bit word right by `n` bits. -/
def rotr (n x : Nat) : Nat := w32 (x / 2 ^ n + x % 2 ^ n * 2 ^ (32 - n))

/-- The 64 SHA-256 round constants (FIPS 180-4 Sec. 4.2.2, here in
decimal). -/
def shaK : List Nat :=
  [1116352408, 1899447441, 3049323471, 3921009573, 961987163,
   1508970993, 2453635748, 2870763221, 3624381080, 310598401,
   607225278, 1426881987, 1925078388, 2162078206, 2614888103,
   3248222580, 3835390401, 4022224774, 264347078, 604807628,
   770255983, 1249150122, 1555081692, 1996064986, 2554220882,
   2821834349, 2952996808, 3210313671, 3336571891, 3584528711,
   113926993, 338241895, 666307205, 773529912, 1294757372,
   1396182291, 1695183700, 1986661051, 2177026350, 2456956037,
   2730485921, 2820302411, 3259730800, 3345764771, 3516065817,
   3600352804, 4094571909, 275423344, 430227734, 506948616,
   659060556, 883997877, 958139571, 1322822218, 1537002063,
   1747873779, 1955562222, 2024104815, 2227730452, 2361852424,
   2428436474, 2756734187, 3204031479, 3329325298]

/-- The eight 32-bit words of a SHA-256 chaining state. -/
structure Hs where
  a : Nat
  b : Nat
  c : Nat
  d : Nat
  e : Nat
  f : Nat
  g : Nat
  h : Nat

/-- The SHA-256 initial chaining state (FIPS 180-4 Sec. 5.3.3, in
decimal). -/
def shaH0 : Hs :=
  ⟨1779033703, 3144134277, 1013904242, 2773480762,
   1359893119, 2600822924, 528734635, 1541459225⟩

def ch (x y z : Nat) : Nat :=
  Nat.xor (Nat.land x y) (Nat.land (Nat.xor x 0xffffffff) z)

def maj (x y z : Nat) : Nat :=
  Nat.xor (Nat.land x y) (Nat.xor (Nat.land x z) (Nat.land y z))

def bigSigma0 (x : Nat) : Nat := Nat.xor (rotr 2 x) (Nat.xor (rotr 13 x) (rotr 22 x))

def bigSigma1 (x : Nat) : Nat := Nat.xor (rotr 6 x) (Nat.xor (rotr 11 x) (rotr 25 x))

def smallSigma0 (x : Nat) : Nat := Nat.xor (rotr 7 x) (Nat.xor (rotr 18 x) (x / 2 ^ 3))

def smallSigma1 (x : Nat) : Nat := Nat.xor (rotr 17 x) (Nat.xor (rotr 19 x) (x / 2 ^ 10))

/-- Group a byte string into big-endian 32-bit words. -/
def toWords : Bytes → List Nat
  | b0 :: b1 :: b2 :: b3 :: rest =>
      (((b0 * 256 + b1) * 256 + b2) * 256 + b3) :: toWords rest
  | _ => []

/-- Extend the 16 message words to 64 schedule words.  The accumulator is
kept most-recent-first, so `w[j-2]` is entry 1 and `w[j-16]` entry 15. -/
def schedExt : Nat → List Nat → List Nat
  | 0, rws => rws
  | n + 1, rws =>
      schedExt n
        (w32 (rws.getD 15 0 + smallSigma0 (rws.getD 14 0) +
              rws.getD 6 0 + smallSigma1 (rws.getD 1 0)) :: rws)

/-- The 64-word message schedule of one block. -/
def schedule (ws : List Nat) : List Nat := (schedExt 48 ws.reverse).reverse

/-- One SHA-256 round; `kw` is the round constant plus the schedule word. -/
def shaRound (s : Hs) (kw : Nat) : Hs :=
  let t1 := w32 (s.h + bigSigma1 s.e + ch s.e s.f s.g + kw)
  let t2 := w32 (bigSigma0 s.a + maj s.a s.b s.c)
  ⟨w32 (t1 + t2), s.a, s.b, s.c, w32 (s.d + t1), s.e, s.f, s.g⟩

/-- Compress one 64-byte block into the chaining state. -/
def compress (s : Hs) (block : Bytes) : Hs :=
  let t := (List.zipWith (fun k w => w32 (k + w)) shaK
              (schedule (toWords block))).foldl shaRound s
  ⟨w32 (s.a + t.a), w32 (s.b + t.b), w32 (s.c + t.c), w32 (s.d + t.d),
   w32 (s.e + t.e), w32 (s.f + t.f), w32 (s.g + t.g), w32 (s.h + t.h)⟩

/-- SHA-256 padding: `0x80`, zeros to 56 mod 64, and the 64-bit bit length. -/
def shaPad (msg : Bytes) : Bytes :=
  msg ++ 0x80 :: List.replicate ((119 - msg.length % 64) % 64) 0 ++
    be64 (8 * msg.length)

/-- Fold `compress` over the 64-byte blocks of a (padded) message; the fuel
is at least the byte length, and each step consumes 64 bytes. -/
def shaBlocks : Nat → Hs → Bytes → Hs
  | 0, s, _ => s
  | n + 1, s, msg =>
      if msg.isEmpty then s
      else shaBlocks n (compress s (msg.take 64)) (msg.drop 64)

/-- The 32 digest bytes of a chaining state. -/
def hsBytes (s : Hs) : Bytes :=
  be32 s.a ++ be32 s.b ++ be32 s.c ++ be32 s.d ++
  be32 s.e ++ be32 s.f ++ be32 s.g ++ be32 s.h

/-- SHA-256 of a byte string. -/
def sha256 (msg : Bytes) : Bytes :=
  hsBytes (shaBlocks (shaPad msg).length shaH0 (shaPad msg))

/-- HMAC-SHA-256 (RFC 2104): block size 64, `ipad = 0x36`, `opad = 0x5c`. -/
def hmacSha256 (key msg : Bytes) : Bytes :=
  let k0 := if 64 < key.length then sha256 key else key
  let k := k0 ++ List.replicate (64 - k0.length) 0
  sha256 (k.map (Nat.xor 0x5c) ++ sha256 (k.map (Nat.xor 0x36) ++ msg))

/-- Modelled from the spec: `util/prf.py` is not in `src/`; the suite's PRF
is HMAC-SHA-256 (spec Sec. 4.1), `PRF(key, data) -> 32B`. -/
def prf (key data : Bytes) : Bytes := hmacSha256 key data

/-- `T1 || T2 || ...` with `T1 = PRF(K, S || 0x01)` and
`Ti = PRF(K, T(i-1) || S || byte(i))`; `n` blocks remain, `i` is the 1-based
counter, `prev` the previous block (empty before `T1`). -/
def prfplusBlocks (k s : Bytes) : Nat → Nat → Bytes → Bytes
  | 0, _, _ => []
  | n + 1, i, prev =>
      let t := prf k (prev ++ s ++ [i])
      t ++ prfplusBlocks k s n (i + 1) t

/-- Modelled from the spec: `util/prf.py` is not in `src/`; PRF+ expansion
(spec Sec. 4.1) of `L` bytes of key material from key `k` and seed `s`. -/
def prfplus (k s : Bytes) (len : Nat) : Bytes :=
  (prfplusBlocks k s ((len + 31) / 32) 1 []).take len

/- ### Key derivation (`IKE.ike_auth`, protocol.py lines 103-120) -/

/-- Modelled from the spec: `util/conv.py` (`to_bytes`) is not in `src/`;
SPIs are 8-byte values (spec Sec. 3), encoded big-endian. -/
def toBytesSpi (n : Nat) : Bytes := be64 n

/-- `SKEYSEED = prf(self.Ni + self.Nr, self.diffie_hellman.shared_secret)`
(protocol.py line 103). -/
def skeyseed (ni nr secret : Bytes) : Bytes := prf (ni ++ nr) secret

/-- `keymat = prfplus(SKEYSEED, Ni + Nr + to_bytes(iSPI) + to_bytes(rSPI),
32 * 7)` (protocol.py lines 107-109). -/
def keymat (ni nr secret : Bytes) (ispi rspi : Nat) : Bytes :=
  prfplus (skeyseed ni nr secret)
    (ni ++ nr ++ toBytesSpi ispi ++ toBytesSpi rspi) (32 * 7)

/-- The seven derived session keys. -/
structure Keys where
  sk_d : Bytes
  sk_ai : Bytes
  sk_ar : Bytes
  sk_ei : Bytes
  sk_er : Bytes
  sk_pi : Bytes
  sk_pr : Bytes

/-- `unpack("32s" * 7, keymat)` (protocol.py lines 114-120): the key material
sliced into seven consecutive 32-byte strings. -/
def deriveKeys (ni nr secret : Bytes) (ispi rspi : Nat) : Keys :=
  let km := keymat ni nr secret ispi rspi
  ⟨km.take 32, (km.drop 32).take 32, (km.drop 64).take 32,
   (km.drop 96).take 32, (km.drop 128).take 32, (km.drop 160).take 32,
   (km.drop 192).take 32⟩

/- ### Length facts about the primitives -/

theorem be32_length (n : Nat) : (be32 n).length = 4 := rfl

theorem be64_length (n : Nat) : (be64 n).length = 8 := rfl

theorem sha256_length (msg : Bytes) : (sha256 msg).length = 32 := by
  simp [sha256, hsBytes, be32]

theorem hmacSha256_length (key msg : Bytes) :
    (hmacSha256 key msg).length = 32 := by
  simp [hmacSha256, sha256_length]

theorem prf_length (key data : Bytes) : (prf key data).length = 32 :=
  hmacSha256_length key data

theorem prfplusBlocks_length (k s : Bytes) (n i : Nat) (prev : Bytes) :
    (prfplusBlocks k s n i prev).length = 32 * n := by
  induction n generalizing i prev with
  | zero => rfl
  | succ m ih =>
      simp [prfplusBlocks, prf_length, ih]
      ring

theorem prfplus_length (k s : Bytes) (len : Nat) :
    (prfplus k s len).length = len := by
  have hb := prfplusBlocks_length k s ((len + 31) / 32) 1 []
  have hd := Nat.div_add_mod (len + 31) 32
  have hm : (len + 31) % 32 < 32 := Nat.mod_lt _ (by omega)
  simp only [prfplus, List.length_take, hb]
  omega

/- ### The wire codec's encoders (ike/payloads.py)

`IkePayload.header` packs `(next_payload, flags, length)` with
`struct.pack("!2BH", ...)` and `__bytes__` returns `header + _data`. -/

/-- The 4-byte payload header `const.PAYLOAD_HEADER.pack(next, flags, len)`. -/
def payloadHeader (next flags len : Nat) : Bytes :=
  [next % 256, flags % 256] ++ be16 len

/-- `SA.__bytes__` (ike/payloads.py lines 109-115): sets
`length = 4 + sum(len(x) for x in ret)` over the encoded proposals, then
concatenates header and proposals.  The `Proposal` encoder itself is in the
external `proposal` module, so the encoded proposal byte strings are
parameters. -/
def saPayloadBytes (next flags : Nat) (proposals : List Bytes) : Bytes :=
  payloadHeader next flags (4 + (proposals.map List.length).sum) ++
    proposals.flatten

/-- `KE.__init__` without wire data (ike/payloads.py lines 134-142):
`_data = pack("!2H", group, 0) + kex_data`, `length = 4 + len(_data)`. -/
def kePayloadBytes (next flags group : Nat) (kex : Bytes) : Bytes :=
  payloadHeader next flags (4 + (be16 group ++ be16 0 ++ kex).length) ++
    (be16 group ++ be16 0 ++ kex)

/-- `Nonce.__init__` without wire data (ike/payloads.py lines 149-159):
`_data = nonce`, `length = 4 + len(_data)` (the `os.urandom(32)` default is
a caller-supplied value here). -/
def noncePayloadBytes (next flags : Nat) (nonce : Bytes) : Bytes :=
  payloadHeader next flags (4 + nonce.length) ++ nonce

/-- The fixed identity `b"test@77.fi"` of `IDi.__init__`. -/
def idiEmail : Bytes := [116, 101, 115, 116, 64, 55, 55, 46, 102, 105]

/-- `IDi.__init__` (ike/payloads.py lines 210-215):
`length = 8 + len(EMAIL)`, `_data = pack("!B3x", 3) + EMAIL`. -/
def idiPayloadBytes (next flags : Nat) : Bytes :=
  payloadHeader next flags (8 + idiEmail.length) ++ ([3, 0, 0, 0] ++ idiEmail)

/-- `AUTH.__init__` with signed octets (ike/payloads.py lines 222-242):
`length = 8 + len(authentication_data)`,
`_data = pack("!B3x", method) + authentication_data`.  The authentication
data bytes (an external `pubkey.sign` signature for the active RSA method,
or the PSK MAC) are a parameter. -/
def authPayloadBytes (next flags method : Nat) (authData : Bytes) : Bytes :=
  payloadHeader next flags (8 + authData.length) ++
    ([method % 256, 0, 0, 0] ++ authData)

/-- A single IPv4 traffic selector
`struct.pack("!2BH2H2I", 7, 0, 16, port, port, ip, ip)`
(ike/payloads.py line 198). -/
def tsSelector (ip port : Nat) : Bytes :=
  [7, 0] ++ be16 16 ++ be16 port ++ be16 port ++ be32 ip ++ be32 ip

/-- `_TS.__init__` with an address (ike/payloads.py lines 190-200), shared by
`TSi` and `TSr`: `_data = pack("!B3x", 1) + selector`,
`length = len(_data) + 4`. -/
def tsPayloadBytes (next flags ip port : Nat) : Bytes :=
  payloadHeader next flags (([1, 0, 0, 0] ++ tsSelector ip port).length + 4) ++
    ([1, 0, 0, 0] ++ tsSelector ip port)

/- ### The IKE header and `IKE.init` (protocol.py lines 41-60) -/

/-- `const.IKE_HEADER.pack` / `IKE_HEADER.pack`: 28 bytes,
`struct.pack("!2Q4B2I", iSPI, rSPI, first_payload, version, exchange_type,
flags, message_id, length)`. -/
def ikeHeaderBytes (ispi rspi fp ver exch flags msgid len : Nat) : Bytes :=
  be64 ispi ++ be64 rspi ++ [fp % 256, ver % 256, exch % 256, flags % 256] ++
    be32 msgid ++ be32 len

/-- `IKE.init` (protocol.py lines 41-60): payloads SA (next "KE" = 34),
KE (next "Ni" = 40, DH group default 14), Nonce (no successor, 0), then the
IKE header with first payload `SA._type = 33`, version `0x20`,
exchange `IKE_SA_INIT = 34`, flag `I = 0x08`, message id 0 and length
`len(packet.data) + 28`.  The `DiffieHellman` public value and the SA
proposal substructures live in external modules (`util/dh.py`,
`proposal.py` are not in `src/`), so the public-key bytes, the encoded
proposals and the initiator SPI carried by `packet.payloads[0].spi` are
parameters; per the spec the SPI is 8 random nonzero bytes. -/
def initPayloadBytes (proposals : List Bytes) (pubKey ni : Bytes) : Bytes :=
  saPayloadBytes 34 0 proposals ++ kePayloadBytes 40 0 14 pubKey ++
    noncePayloadBytes 0 0 ni

/-- `packet.header + packet.data` as returned by `IKE.init`. -/
def initPacket (spi : Nat) (proposals : List Bytes) (pubKey ni : Bytes) :
    Bytes :=
  ikeHeaderBytes spi 0 33 0x20 34 8 0
      ((initPayloadBytes proposals pubKey ni).length + 28) ++
    initPayloadBytes proposals pubKey ni

/- ### `IKE.ike_auth` (protocol.py lines 69-178) -/

/-- Modelled from the spec: `util/cipher.py` is not in `src/`.  IKEv2
padding to the 16-byte boundary (spec Sec. 4.1): append `n - 1` arbitrary
bytes (zeros here) and a final byte of value `n - 1`, where `n` makes the
total a multiple of the block size. -/
def pad16 (b : Bytes) : Bytes :=
  b ++ List.replicate (16 - b.length % 16 - 1) 0 ++ [16 - b.length % 16 - 1]

/-- Byte-wise xor of two equal-length byte strings. -/
def xorBytes (a b : Bytes) : Bytes := List.zipWith Nat.xor a b

/-- CBC mode, one 16-byte block per step: each block is xored with the
previous ciphertext block (initially the IV) and put through the block
permutation; the fuel is at least the message length. -/
def cbcBlocks (enc : Bytes → Bytes) : Nat → Bytes → Bytes → Bytes
  | 0, _, _ => []
  | f + 1, prev, msg =>
      if msg.isEmpty then []
      else
        enc (xorBytes prev (msg.take 16)) ++
          cbcBlocks enc f (enc (xorBytes prev (msg.take 16))) (msg.drop 16)

/-- Modelled from the spec: `util/cipher.py` (Camellia) is not in `src/`;
the spec fixes Camellia-256-CBC with a 16-byte IV (Sec. 4.1), so CBC is
modelled here and the block permutation (Camellia under the session key)
is a parameter. -/
def cbcEncrypt (enc : Bytes → Bytes) (iv msg : Bytes) : Bytes :=
  cbcBlocks enc msg.length iv msg

/-- The fixed identity `b"k@77.fi"` of `ike_auth` (protocol.py line 74). -/
def authEmail : Bytes := [107, 64, 55, 55, 46, 102, 105]

/-- The fixed pre-shared key `PSK = b"foo"` (protocol.py line 81). -/
def pskBytes : Bytes := [102, 111, 111]

/-- `b"Key Pad for IKEv2"` (protocol.py line 127). -/
def keyPad : Bytes :=
  [75, 101, 121, 32, 80, 97, 100, 32, 102, 111, 114, 32, 73, 75, 69, 118, 50]

/-- The IDi payload body `pack("!B3x", 3) + EMAIL` (protocol.py lines
76-77); `IDi = bytes(plain)[PAYLOAD.size:]` (line 83) binds exactly these
bytes, from the id-type byte on. -/
def idiBody : Bytes := [3, 0, 0, 0] ++ authEmail

/-- `signed = message1 + self.Nr + prf(self.SK_pi, IDi)` (protocol.py line
126); `message1` is `self.packets[0].data`. -/
def signedOctets (skPi msg1 nr : Bytes) : Bytes :=
  msg1 ++ nr ++ prf skPi idiBody

/-- `prf(prf(PSK, b"Key Pad for IKEv2"), signed)[:const.AUTH_MAC_SIZE]`
(protocol.py line 127); `AUTH_MAC_SIZE` is 16 (spec Sec. 6). -/
def authDataPsk (skPi msg1 nr : Bytes) : Bytes :=
  (prf (prf pskBytes keyPad) (signedOctets skPi msg1 nr)).take 16

/-- The plaintext payload sequence assembled by `ike_auth` (protocol.py
lines 71-146): IDi (next 39), AUTH (next 33, method 2 = PSK), child SA
(next 44; the encoded ESP proposal from the external `proposal` module is
a parameter), TSi (next 45), TSr (next 0); both traffic selectors are the
wildcard `pack("!2BH2H2I", 7, 0, 16, 0, 0, 0, 0)`. -/
def ikeAuthPlain (skPi msg1 nr propData : Bytes) : Bytes :=
  payloadHeader 39 0 (8 + authEmail.length) ++ idiBody ++
  payloadHeader 33 0 (8 + 16) ++ [2, 0, 0, 0] ++
  authDataPsk skPi msg1 nr ++
  payloadHeader 44 0 (propData.length + 4) ++ propData ++
  payloadHeader 45 0 (8 + 16) ++ [1, 0, 0, 0] ++ tsSelector 0 0 ++
  payloadHeader 0 0 (8 + 16) ++ [1, 0, 0, 0] ++ tsSelector 0 0

/-- `ciphertext = ikecrypto.encrypt(plain)` (protocol.py line 156): the
padded plaintext under CBC with the fresh IV; `SK_pi` comes from the key
derivation of the same call. -/
def ikeAuthCipher (enc : Bytes → Bytes) (ni nr secret : Bytes)
    (ispi rspi : Nat) (msg1 propData iv : Bytes) : Bytes :=
  cbcEncrypt enc iv
    (pad16 (ikeAuthPlain (deriveKeys ni nr secret ispi rspi).sk_pi
      msg1 nr propData))

/-- `enc_payload = PAYLOAD.pack(35, 0, payload_len) + iv + ciphertext` with
`payload_len = PAYLOAD.size + len(iv) + len(ciphertext) + MACLEN`
(protocol.py lines 157-158). -/
def encPayloadBytes (iv ct : Bytes) : Bytes :=
  payloadHeader 35 0 (4 + iv.length + ct.length + 16) ++ iv ++ ct

/-- `data = IKE_HEADER.pack(iSPI, rSPI, 46, version, 35, flags, 1,
len(enc_payload) + IKE_HEADER.size + MACLEN) + enc_payload`
(protocol.py lines 161-170). -/
def ikeAuthDataBytes (enc : Bytes → Bytes) (ni nr secret : Bytes)
    (ispi rspi : Nat) (msg1 propData iv : Bytes) : Bytes :=
  ikeHeaderBytes ispi rspi 46 0x20 35 8 1
      ((encPayloadBytes iv
          (ikeAuthCipher enc ni nr secret ispi rspi msg1 propData iv)).length
        + 28 + 16) ++
    encPayloadBytes iv
      (ikeAuthCipher enc ni nr secret ispi rspi msg1 propData iv)

/-- The full IKE_AUTH request `data + mac` returned by `ike_auth`
(protocol.py lines 174-178): HMAC-SHA-256 under `SK_ai` over `data`,
truncated to `MACLEN = 16`, appended. -/
def ikeAuthPacket (enc : Bytes → Bytes) (ni nr secret : Bytes)
    (ispi rspi : Nat) (msg1 propData iv : Bytes) : Bytes :=
  ikeAuthDataBytes enc ni nr secret ispi rspi msg1 propData iv ++
    (hmacSha256 (deriveKeys ni nr secret ispi rspi).sk_ai
      (ikeAuthDataBytes enc ni nr secret ispi rspi msg1 propData iv)).take 16

/-- A 32-byte slice at offset `k`, put back in front of the rest. -/
theorem drop_split32 (xs : Bytes) (k : Nat) :
    (xs.drop k).take 32 ++ xs.drop (k + 32) = xs.drop k := by
  have h : xs.drop (k + 32) = (xs.drop k).drop 32 := by rw [List.drop_drop]
  rw [h, List.take_append_drop]

/-- C1: the session computes `SKEYSEED = PRF(Ni || Nr, shared_secret)` with
PRF = HMAC-SHA-256, expands it as `PRF+(SKEYSEED, Ni || Nr || SPIi || SPIr)`
to exactly 224 bytes, and slices that output in order into the seven
32-byte keys `SK_d, SK_ai, SK_ar, SK_ei, SK_er, SK_pi, SK_pr`. -/
theorem c1_key_derivation (ni nr secret : Bytes) (ispi rspi : Nat) :
    (keymat ni nr secret ispi rspi).length = 224 ∧
    keymat ni nr secret ispi rspi =
      prfplus (hmacSha256 (ni ++ nr) secret)
        (ni ++ nr ++ be64 ispi ++ be64 rspi) 224 ∧
    ((deriveKeys ni nr secret ispi rspi).sk_d ++
     (deriveKeys ni nr secret ispi rspi).sk_ai ++
     (deriveKeys ni nr secret ispi rspi).sk_ar ++
     (deriveKeys ni nr secret ispi rspi).sk_ei ++
     (deriveKeys ni nr secret ispi rspi).sk_er ++
     (deriveKeys ni nr secret ispi rspi).sk_pi ++
     (deriveKeys ni nr secret ispi rspi).sk_pr =
       keymat ni nr secret ispi rspi) ∧
    (deriveKeys ni nr secret ispi rspi).sk_d.length = 32 ∧
    (deriveKeys ni nr secret ispi rspi).sk_ai.length = 32 ∧
    (deriveKeys ni nr secret ispi rspi).sk_ar.length = 32 ∧
    (deriveKeys ni nr secret ispi rspi).sk_ei.length = 32 ∧
    (deriveKeys ni nr secret ispi rspi).sk_er.length = 32 ∧
    (deriveKeys ni nr secret ispi rspi).sk_pi.length = 32 ∧
    (deriveKeys ni nr secret ispi rspi).sk_pr.length = 32 := by
  have h224 : (keymat ni nr secret ispi rspi).length = 224 :=
    prfplus_length _ _ _
  refine ⟨h224, ?_, ?_, ?_, ?_, ?_, ?_, ?_, ?_, ?_⟩
  · simp only [keymat, skeyseed, prf, toBytesSpi]
  · simp only [deriveKeys]
    have hlast : ((keymat ni nr secret ispi rspi).drop 192).take 32 =
        (keymat ni nr secret ispi rspi).drop 192 :=
      List.take_of_length_le (by simp [List.length_drop, h224])
    rw [List.append_assoc, List.append_assoc, List.append_assoc,
      List.append_assoc, List.append_assoc, hlast,
      show (192 : Nat) = 160 + 32 by norm_num, drop_split32,
      show (160 : Nat) = 128 + 32 by norm_num, drop_split32,
      show (128 : Nat) = 96 + 32 by norm_num, drop_split32,
      show (96 : Nat) = 64 + 32 by norm_num, drop_split32,
      show (64 : Nat) = 32 + 32 by norm_num, drop_split32,
      List.take_append_drop]
  all_goals simp only [deriveKeys, List.length_take, List.length_drop, h224]
  all_goals omega

/-- The 2-byte length field of an encoded payload reads back the packed
length, for in-range lengths. -/
theorem be16At_header (next flags len : Nat) (body : Bytes)
    (h : len ≤ 65535) :
    be16At (payloadHeader next flags len ++ body) 2 = len := by
  simp only [payloadHeader, be16, be16At, List.cons_append, List.nil_append,
    List.drop_succ_cons, List.drop_zero]
  omega

/-- Dropping the 4-byte header of an encoded payload leaves its body. -/
theorem drop4_header (next flags len : Nat) (body : Bytes) :
    (payloadHeader next flags len ++ body).drop 4 = body := rfl

/-- C9: for every payload produced by the codec's encoders (SA, KE, Nonce,
IDi, AUTH, TSi/TSr), the 2-byte length field in its payload header equals
4 plus the byte length of its body, and is therefore at least 4. -/
theorem c9_payload_length_invariant
    (next flags group method ip port : Nat)
    (proposals : List Bytes) (kex nonce authData : Bytes)
    (hsa : 4 + (proposals.map List.length).sum ≤ 65535)
    (hke : 8 + kex.length ≤ 65535)
    (hn : 4 + nonce.length ≤ 65535)
    (ha : 8 + authData.length ≤ 65535) :
    (be16At (saPayloadBytes next flags proposals) 2 =
        4 + ((saPayloadBytes next flags proposals).drop 4).length ∧
      4 ≤ be16At (saPayloadBytes next flags proposals) 2) ∧
    (be16At (kePayloadBytes next flags group kex) 2 =
        4 + ((kePayloadBytes next flags group kex).drop 4).length ∧
      4 ≤ be16At (kePayloadBytes next flags group kex) 2) ∧
    (be16At (noncePayloadBytes next flags nonce) 2 =
        4 + ((noncePayloadBytes next flags nonce).drop 4).length ∧
      4 ≤ be16At (noncePayloadBytes next flags nonce) 2) ∧
    (be16At (idiPayloadBytes next flags) 2 =
        4 + ((idiPayloadBytes next flags).drop 4).length ∧
      4 ≤ be16At (idiPayloadBytes next flags) 2) ∧
    (be16At (authPayloadBytes next flags method authData) 2 =
        4 + ((authPayloadBytes next flags method authData).drop 4).length ∧
      4 ≤ be16At (authPayloadBytes next flags method authData) 2) ∧
    (be16At (tsPayloadBytes next flags ip port) 2 =
        4 + ((tsPayloadBytes next flags ip port).drop 4).length ∧
      4 ≤ be16At (tsPayloadBytes next flags ip port) 2) := by
  refine ⟨⟨?_, ?_⟩, ⟨?_, ?_⟩, ⟨?_, ?_⟩, ⟨?_, ?_⟩, ⟨?_, ?_⟩, ⟨?_, ?_⟩⟩
  · rw [saPayloadBytes, be16At_header _ _ _ _ hsa, drop4_header]
    simp [List.length_flatten]
  · rw [saPayloadBytes, be16At_header _ _ _ _ hsa]
    omega
  · rw [kePayloadBytes, be16At_header _ _ _ _ (by simp [be16]; omega),
      drop4_header]
  · rw [kePayloadBytes, be16At_header _ _ _ _ (by simp [be16]; omega)]
    omega
  · rw [noncePayloadBytes, be16At_header _ _ _ _ hn, drop4_header]
  · rw [noncePayloadBytes, be16At_header _ _ _ _ hn]
    omega
  · rw [idiPayloadBytes, be16At_header _ _ _ _ (by simp [idiEmail]),
      drop4_header]
    simp [idiEmail]
  · rw [idiPayloadBytes, be16At_header _ _ _ _ (by simp [idiEmail])]
    simp [idiEmail]
  · rw [authPayloadBytes, be16At_header _ _ _ _ ha, drop4_header]
    simp only [List.cons_append, List.length_cons, List.length_append,
      List.length_nil]
    omega
  · rw [authPayloadBytes, be16At_header _ _ _ _ ha]
    omega
  · rw [tsPayloadBytes, be16At_header _ _ _ _ (by simp [tsSelector, be16, be32]),
      drop4_header]
    simp [tsSelector, be16, be32]
  · rw [tsPayloadBytes, be16At_header _ _ _ _ (by simp [tsSelector, be16, be32])]
    simp [tsSelector, be16, be32]

/-- C9 witness: concrete instantiation of the codec length invariant. -/
theorem c9_payload_length_invariant_witness :
    be16At (noncePayloadBytes 0 0 [1, 2, 3]) 2 =
        4 + ((noncePayloadBytes 0 0 [1, 2, 3]).drop 4).length :=
  (c9_payload_length_invariant 0 0 14 1 0 0 [] [] [1, 2, 3] []
    (by decide) (by decide) (by decide) (by decide)).2.2.1.1

/-- C5: every packet emitted by `init()` begins with a 28-byte IKE header
whose initiator SPI is 8 nonzero bytes, responder SPI 0, first-payload 33
(SA), exchange-type 34, flags 0x08, message-id 0, and whose length field
equals 28 plus the payload bytes; the payloads follow in the order
SA, KE, Nonce. -/
theorem c5_init_packet (spi : Nat) (proposals : List Bytes) (pubKey ni : Bytes)
    (h1 : spi < 18446744073709551616) (h2 : spi ≠ 0)
    (h3 : (initPayloadBytes proposals pubKey ni).length + 28 ≤ 4294967295) :
    initPacket spi proposals pubKey ni =
      (initPacket spi proposals pubKey ni).take 28 ++
        (saPayloadBytes 34 0 proposals ++ kePayloadBytes 40 0 14 pubKey ++
          noncePayloadBytes 0 0 ni) ∧
    ((initPacket spi proposals pubKey ni).take 28).length = 28 ∧
    (initPacket spi proposals pubKey ni).take 8 = be64 spi ∧
    be64 spi ≠ List.replicate 8 0 ∧
    ((initPacket spi proposals pubKey ni).drop 8).take 8 =
      List.replicate 8 0 ∧
    ((initPacket spi proposals pubKey ni).drop 16).take 4 =
      [33, 0x20, 34, 0x08] ∧
    ((initPacket spi proposals pubKey ni).drop 20).take 4 = [0, 0, 0, 0] ∧
    be32At (initPacket spi proposals pubKey ni) 24 =
      28 + (initPayloadBytes proposals pubKey ni).length := by
  refine ⟨rfl, rfl, rfl, ?_, rfl, rfl, rfl, ?_⟩
  · intro h
    rw [show (List.replicate 8 0 : Bytes) = [0, 0, 0, 0, 0, 0, 0, 0] from rfl]
      at h
    simp only [be64, List.cons.injEq, and_true] at h
    omega
  · have hd : (initPacket spi proposals pubKey ni).drop 24 =
        be32 ((initPayloadBytes proposals pubKey ni).length + 28) ++
          initPayloadBytes proposals pubKey ni := rfl
    simp only [be32At, hd, be32, List.cons_append, List.nil_append]
    omega

/-- C5 witness: concrete instantiation of the `init()` framing theorem. -/
theorem c5_init_packet_witness :
    (initPacket 1 [] [] []).take 8 = be64 1 :=
  (c5_init_packet 1 [] [] [] (by decide) (by decide) (by decide)).2.2.1

/- ### Framing of the IKE_AUTH request (claim C4) -/

theorem pad16_length (b : Bytes) :
    (pad16 b).length = b.length + (16 - b.length % 16) := by
  have h : b.length % 16 < 16 := Nat.mod_lt _ (by omega)
  simp [pad16]
  omega

theorem pad16_dvd (b : Bytes) : 16 ∣ (pad16 b).length := by
  rw [pad16_length]
  have hd := Nat.div_add_mod b.length 16
  have h : b.length % 16 < 16 := Nat.mod_lt _ (by omega)
  omega

theorem xorBytes_length (a b : Bytes) :
    (xorBytes a b).length = min a.length b.length := by
  simp [xorBytes]

theorem cbcBlocks_length (enc : Bytes → Bytes)
    (henc : ∀ bl : Bytes, bl.length = 16 → (enc bl).length = 16) :
    ∀ (f : Nat) (prev msg : Bytes), prev.length = 16 → 16 ∣ msg.length →
      msg.length ≤ f → (cbcBlocks enc f prev msg).length = msg.length := by
  intro f
  induction f with
  | zero =>
      intro prev msg _ _ hle
      simp only [cbcBlocks, List.length_nil]
      omega
  | succ n ih =>
      intro prev msg hprev hdvd hle
      by_cases hm : msg.isEmpty
      · rw [List.isEmpty_iff] at hm
        simp [cbcBlocks, hm]
      · have hne : msg ≠ [] := by simpa [List.isEmpty_iff] using hm
        have hpos : 0 < msg.length := List.length_pos.mpr hne
        obtain ⟨k, hk⟩ := hdvd
        have h16 : 16 ≤ msg.length := by omega
        have htake : (msg.take 16).length = 16 := by
          simp [List.length_take]
          omega
        have hxor : (xorBytes prev (msg.take 16)).length = 16 := by
          rw [xorBytes_length, hprev, htake]
          omega
        have hc := henc _ hxor
        have hdrop : (msg.drop 16).length = msg.length - 16 :=
          List.length_drop 16 msg
        have ihd := ih (enc (xorBytes prev (msg.take 16))) (msg.drop 16) hc
          (by rw [hdrop]; exact ⟨k - 1, by omega⟩) (by omega)
        simp only [cbcBlocks, hm, Bool.false_eq_true, if_false,
          List.length_append, hc, ihd, hdrop]
        omega

theorem cbcEncrypt_length (enc : Bytes → Bytes)
    (henc : ∀ bl : Bytes, bl.length = 16 → (enc bl).length = 16)
    (iv msg : Bytes) (hiv : iv.length = 16) (hdvd : 16 ∣ msg.length) :
    (cbcEncrypt enc iv msg).length = msg.length :=
  cbcBlocks_length enc henc msg.length iv msg hiv hdvd (Nat.le_refl _)

theorem authDataPsk_length (skPi msg1 nr : Bytes) :
    (authDataPsk skPi msg1 nr).length = 16 := by
  simp [authDataPsk, List.length_take, prf_length]

theorem ikeAuthPlain_length (skPi msg1 nr propData : Bytes) :
    (ikeAuthPlain skPi msg1 nr propData).length = 91 + propData.length := by
  simp [ikeAuthPlain, payloadHeader, be16, idiBody, authEmail,
    authDataPsk_length, tsSelector, be32]
  omega

theorem ikeAuthCipher_length (enc : Bytes → Bytes) (ni nr secret : Bytes)
    (ispi rspi : Nat) (msg1 propData iv : Bytes)
    (henc : ∀ bl : Bytes, bl.length = 16 → (enc bl).length = 16)
    (hiv : iv.length = 16) :
    (ikeAuthCipher enc ni nr secret ispi rspi msg1 propData iv).length =
      (pad16 (ikeAuthPlain (deriveKeys ni nr secret ispi rspi).sk_pi
        msg1 nr propData)).length := by
  rw [ikeAuthCipher, cbcEncrypt_length enc henc iv _ hiv (pad16_dvd _)]

theorem ikeAuthCipher_length_le (enc : Bytes → Bytes) (ni nr secret : Bytes)
    (ispi rspi : Nat) (msg1 propData iv : Bytes)
    (henc : ∀ bl : Bytes, bl.length = 16 → (enc bl).length = 16)
    (hiv : iv.length = 16) :
    (ikeAuthCipher enc ni nr secret ispi rspi msg1 propData iv).length ≤
      107 + propData.length := by
  rw [ikeAuthCipher_length enc ni nr secret ispi rspi msg1 propData iv henc
    hiv, pad16_length, ikeAuthPlain_length]
  omega

theorem drop_append_len (xs ys : Bytes) (i : Nat) :
    (xs ++ ys).drop (xs.length + i) = ys.drop i := by
  rw [← List.drop_drop, List.drop_left]

theorem be16At_shift (xs ys : Bytes) (i : Nat) :
    be16At (xs ++ ys) (xs.length + i) = be16At ys i := by
  unfold be16At
  rw [drop_append_len]

theorem be32At_shift (xs ys : Bytes) (i : Nat) :
    be32At (xs ++ ys) (xs.length + i) = be32At ys i := by
  unfold be32At
  rw [drop_append_len]

theorem be32_val (n : Nat) (rest : Bytes) (h : n ≤ 4294967295) :
    be32At (be32 n ++ rest) 0 = n := by
  simp only [be32At, be32, List.cons_append, List.drop_zero]
  omega

theorem ikeHeaderBytes_length (a b c d e f g h : Nat) :
    (ikeHeaderBytes a b c d e f g h).length = 28 := rfl

theorem encPayloadBytes_length (iv ct : Bytes) :
    (encPayloadBytes iv ct).length = 4 + iv.length + ct.length := by
  simp [encPayloadBytes, payloadHeader, be16]
  omega

/-- The IKE_AUTH request in head-normal shape: header, then encrypted
payload, then tail MAC. -/
theorem ikeAuthPacket_eq (enc : Bytes → Bytes) (ni nr secret : Bytes)
    (ispi rspi : Nat) (msg1 propData iv : Bytes) :
    ikeAuthPacket enc ni nr secret ispi rspi msg1 propData iv =
      ikeHeaderBytes ispi rspi 46 0x20 35 8 1
          ((encPayloadBytes iv
              (ikeAuthCipher enc ni nr secret ispi rspi msg1 propData iv)).length
            + 28 + 16) ++
        (encPayloadBytes iv
            (ikeAuthCipher enc ni nr secret ispi rspi msg1 propData iv) ++
          (hmacSha256 (deriveKeys ni nr secret ispi rspi).sk_ai
            (ikeAuthDataBytes enc ni nr secret ispi rspi msg1 propData
              iv)).take 16) := by
  rw [ikeAuthPacket, ikeAuthDataBytes, List.append_assoc]

/-- C4: every IKE_AUTH request emitted by `auth()` consists of a 28-byte IKE
header with first-payload 46, exchange-type 35, flags 0x08, message-id 1,
followed by an Encrypted payload whose length field is
4 + 16 (IV) + |ciphertext| + 16 (MAC); the header's length field equals the
total number of bytes emitted; and the trailing 16 bytes are HMAC-SHA-256
under `SK_ai` over every preceding byte, truncated to 16 bytes. -/
theorem c4_ike_auth_framing (enc : Bytes → Bytes) (ni nr secret : Bytes)
    (ispi rspi : Nat) (msg1 propData iv : Bytes)
    (henc : ∀ bl : Bytes, bl.length = 16 → (enc bl).length = 16)
    (hiv : iv.length = 16) (hprop : propData.length ≤ 60000) :
    (ikeAuthPacket enc ni nr secret ispi rspi msg1 propData iv).take 28 =
      ikeHeaderBytes ispi rspi 46 0x20 35 8 1
        ((encPayloadBytes iv
            (ikeAuthCipher enc ni nr secret ispi rspi msg1 propData iv)).length
          + 28 + 16) ∧
    ((ikeAuthPacket enc ni nr secret ispi rspi msg1 propData iv).drop
        16).take 8 = [46, 0x20, 35, 8, 0, 0, 0, 1] ∧
    be16At (ikeAuthPacket enc ni nr secret ispi rspi msg1 propData iv) 30 =
      4 + 16 +
        (ikeAuthCipher enc ni nr secret ispi rspi msg1 propData iv).length +
        16 ∧
    be32At (ikeAuthPacket enc ni nr secret ispi rspi msg1 propData iv) 24 =
      (ikeAuthPacket enc ni nr secret ispi rspi msg1 propData iv).length ∧
    (ikeAuthPacket enc ni nr secret ispi rspi msg1 propData iv).drop
        ((ikeAuthPacket enc ni nr secret ispi rspi msg1 propData iv).length
          - 16) =
      (hmacSha256 (deriveKeys ni nr secret ispi rspi).sk_ai
        ((ikeAuthPacket enc ni nr secret ispi rspi msg1 propData iv).take
          ((ikeAuthPacket enc ni nr secret ispi rspi msg1 propData iv).length
            - 16))).take 16 := by
  have hct := ikeAuthCipher_length_le enc ni nr secret ispi rspi msg1
    propData iv henc hiv
  have hencp := encPayloadBytes_length iv
    (ikeAuthCipher enc ni nr secret ispi rspi msg1 propData iv)
  have hm16 : ((hmacSha256 (deriveKeys ni nr secret ispi rspi).sk_ai
      (ikeAuthDataBytes enc ni nr secret ispi rspi msg1 propData
        iv)).take 16).length = 16 := by
    simp [List.length_take, hmacSha256_length]
  refine ⟨?_, ?_, ?_, ?_, ?_⟩
  · conv_lhs => rw [ikeAuthPacket_eq]
    rw [show (28 : Nat) = (ikeHeaderBytes ispi rspi 46 0x20 35 8 1
      ((encPayloadBytes iv
          (ikeAuthCipher enc ni nr secret ispi rspi msg1 propData iv)).length
        + 28 + 16)).length from (ikeHeaderBytes_length _ _ _ _ _ _ _ _).symm]
    exact List.take_left _ _
  · rfl
  · have h30 : be16At
        (ikeAuthPacket enc ni nr secret ispi rspi msg1 propData iv) 30 =
        256 * ((4 + iv.length +
          (ikeAuthCipher enc ni nr secret ispi rspi msg1 propData
            iv).length + 16) / 256 % 256) +
        (4 + iv.length +
          (ikeAuthCipher enc ni nr secret ispi rspi msg1 propData
            iv).length + 16) % 256 := rfl
    rw [h30]
    omega
  · have hlen : (ikeAuthPacket enc ni nr secret ispi rspi msg1 propData
        iv).length =
        (encPayloadBytes iv
            (ikeAuthCipher enc ni nr secret ispi rspi msg1 propData
              iv)).length + 28 + 16 := by
      rw [ikeAuthPacket_eq]
      simp only [List.length_append, ikeHeaderBytes_length, hm16]
      omega
    have h24 : be32At
        (ikeAuthPacket enc ni nr secret ispi rspi msg1 propData iv) 24 =
        ((((encPayloadBytes iv
              (ikeAuthCipher enc ni nr secret ispi rspi msg1 propData
                iv)).length + 28 + 16) / 16777216 % 256 * 256 +
           ((encPayloadBytes iv
              (ikeAuthCipher enc ni nr secret ispi rspi msg1 propData
                iv)).length + 28 + 16) / 65536 % 256) * 256 +
          ((encPayloadBytes iv
              (ikeAuthCipher enc ni nr secret ispi rspi msg1 propData
                iv)).length + 28 + 16) / 256 % 256) * 256 +
        ((encPayloadBytes iv
            (ikeAuthCipher enc ni nr secret ispi rspi msg1 propData
              iv)).length + 28 + 16) % 256 := rfl
    rw [h24, hlen]
    omega
  · have hsub : (ikeAuthPacket enc ni nr secret ispi rspi msg1 propData
        iv).length - 16 =
        (ikeAuthDataBytes enc ni nr secret ispi rspi msg1 propData
          iv).length := by
      rw [ikeAuthPacket]
      simp only [List.length_append, hm16]
      omega
    rw [hsub, ikeAuthPacket, List.take_left, List.drop_left]

/-- C4 witness: concrete instantiation of the IKE_AUTH framing theorem with
the identity block permutation. -/
theorem c4_ike_auth_framing_witness :
    ((ikeAuthPacket id [] [] [] 0 0 [] [] (List.replicate 16 0)).drop
      16).take 8 = [46, 0x20, 35, 8, 0, 0, 0, 1] :=
  (c4_ike_auth_framing id [] [] [] 0 0 [] [] (List.replicate 16 0)
    (fun bl h => h) (by simp) (by decide)).2.1

/- ### The receive path (`parse_packet`, protocol.py lines 190-230) -/

/-- The value denoted by an 8-byte big-endian field at offset `i`. -/
def be64At (b : Bytes) (i : Nat) : Nat :=
  match b.drop i with
  | b0 :: b1 :: b2 :: b3 :: b4 :: b5 :: b6 :: b7 :: _ =>
      ((((((b0 * 256 + b1) * 256 + b2) * 256 + b3) * 256 + b4) * 256 + b5) *
        256 + b6) * 256 + b7
  | _ => 0

/-- A parsed payload: the payload-header fields every class reads in
`IkePayload.__init__`, the `_data` each class's `parse` leaves behind
(`body`; for KE it holds `kex_data`, for SA nothing is stored), and the
`message_type` / log `level` attributes that `Notify.parse` adds. -/
structure Payload where
  ptype : Nat
  next_payload : Nat
  flags : Nat
  length : Nat
  body : Bytes
  messageType : Option Nat := none
  level : Option Nat := none
  deriving DecidableEq

/-- `IkePayload.__init__` with wire data (ike/payloads.py lines 50-55 and
81-82): unpack the 4-byte header (fewer than 4 bytes is a `struct.error`,
modelled as `none`) and keep `_data = data[4:]`.  Types with no class of
their own (`BY_TYPE` misses, caught as `KeyError` in protocol.py lines
221-224) are parsed exactly this way. -/
def parseGeneric (np : Nat) (rem : Bytes) : Option Payload :=
  if rem.length < 4 then none
  else some ⟨np, rem.getD 0 0, rem.getD 1 0, be16At rem 2, rem.drop 4,
    none, none⟩

/-- `Nonce.parse` (ike/payloads.py lines 146-147), after the re-parse on the
full buffer: `_data = data[4:self.length]`. -/
def parseNonce (np : Nat) (rem : Bytes) : Option Payload :=
  if rem.length < 4 then none
  else some ⟨40, rem.getD 0 0, rem.getD 1 0, be16At rem 2,
    (rem.drop 4).take (be16At rem 2 - 4), none, none⟩

/-- `KE.parse` (ike/payloads.py lines 128-132): the first parse call (on
`data[4:]`) unpacks `data[4:8]` of that slice, so fewer than 12 bytes is a
`struct.error`; after the re-parse on the full buffer
`kex_data = data[8:self.length]` (kept as `body`). -/
def parseKE (np : Nat) (rem : Bytes) : Option Payload :=
  if rem.length < 12 then none
  else some ⟨34, rem.getD 0 0, rem.getD 1 0, be16At rem 2,
    (rem.drop 8).take (be16At rem 2 - 8), none, none⟩

/-- `Notify.parse` (ike/payloads.py lines 162-174), called once on
`data[4:]`: unpack protocol-id, spi-size and message-type from its first
4 bytes (fewer is a `struct.error`), keep `_data = data[4:self.length]`,
and set the log level to `logging.ERROR` (40) for message-types below
`2 ** 14` and `logging.INFO` (20) otherwise.  `const.MessageType` is from
the external `const` module; modelled from the spec (Sec. 3), which
constrains only the `2^14` error threshold, it accepts any value. -/
def parseNotify (np : Nat) (rem : Bytes) : Option Payload :=
  if rem.length < 4 then none
  else if (rem.drop 4).length < 4 then none
  else some ⟨41, rem.getD 0 0, rem.getD 1 0, be16At rem 2,
    ((rem.drop 4).drop 4).take (be16At rem 2 - 4),
    some (be16At rem 6),
    some (if be16At rem 6 < 16384 then 40 else 20)⟩

/-- Modelled from the spec: `SA.parse` (ike/payloads.py lines 117-124)
walks `Proposal` substructures from the external `proposal` module.  Per
the spec (Secs. 4.2, 7) a proposal has an 8-byte sub-header whose leading
byte is 0 on the last proposal, a 2-byte length at offset 2, and a length
below 4 is malformed.  The fuel exceeds the buffer length, and each
accepted proposal consumes at least 4 bytes. -/
def proposalsOk : Nat → Bytes → Bool
  | 0, _ => false
  | f + 1, d =>
      if d.length < 8 then false
      else if be16At d 2 < 4 then false
      else if d.getD 0 0 = 0 then true
      else proposalsOk f (d.drop (be16At d 2))

/-- `SA.__init__` with wire data (ike/payloads.py lines 85-107): the
header parse, then `SA.parse` runs twice — once on `data[4:]` from
`IkePayload.__init__` and once more on the full buffer — and neither call
stores `_data`. -/
def parseSA (np : Nat) (rem : Bytes) : Option Payload :=
  if rem.length < 4 then none
  else if proposalsOk (rem.length + 1) (rem.drop 4) &&
      proposalsOk (rem.length + 1) rem then
    some ⟨33, rem.getD 0 0, rem.getD 1 0, be16At rem 2, [], none, none⟩
  else none

/-- `IDi.__init__` (ike/payloads.py lines 210-215): after the header parse
it unconditionally overwrites `length` with `8 + len(EMAIL) = 18` and
`_data` with the fixed identity, even when decoding wire data. -/
def parseIDi (np : Nat) (rem : Bytes) : Option Payload :=
  if rem.length < 4 then none
  else some ⟨35, rem.getD 0 0, rem.getD 1 0, 18, [3, 0, 0, 0] ++ idiEmail,
    none, none⟩

/-- The `payloads.BY_TYPE` dispatch of protocol.py line 221, modelled from
the class registry of ike/payloads.py (`get_by_type`, lines 245-254): SA,
KE, Nonce, Notify and IDi have parsing of their own; IDr, AUTH, TSi and
TSr inherit the generic parse; every other type number is a `KeyError`
caught at protocol.py lines 222-224 and parsed generically. -/
def parsePayload (np : Nat) (rem : Bytes) : Option Payload :=
  if np = 33 then parseSA np rem
  else if np = 34 then parseKE np rem
  else if np = 40 then parseNonce np rem
  else if np = 41 then parseNotify np rem
  else if np = 35 then parseIDi np rem
  else parseGeneric np rem

/-- Errors of the receive path.  `integrityCheckFailed` stands for the
failure of the `assert hmac_ours == hmac_theirs` at protocol.py line 215
(the spec's `INTEGRITY_CHECK_FAILED`; the code marks the spot
`# TODO: raise IkeError`); `malformed` stands for a `struct.error` from a
truncated buffer. -/
inductive PErr where
  | malformed
  | integrityCheckFailed
  deriving DecidableEq

/-- The outcome of the payload-walking loop. -/
inductive WalkResult where
  | done (ps : List Payload)
  | fail (e : PErr)
  | fuelOut
  deriving DecidableEq

/-- The `while next_payload:` loop of protocol.py lines 217-228: parse the
payload the chain names, append it, follow `payload.next_payload` and drop
`payload.length` bytes.  The loop is unbounded in the source; `fuelOut`
marks runs that exhaust the fuel. -/
def walk : Nat → Nat → Bytes → List Payload → WalkResult
  | 0, _, _, _ => .fuelOut
  | f + 1, np, rem, acc =>
      if np = 0 then .done acc
      else
        match parsePayload np rem with
        | none => .fail .malformed
        | some p => walk f p.next_payload (rem.drop p.length) (acc ++ [p])

/-- The parsed packet: the IKE-header fields `parse_packet` unpacks plus
the payload list it accumulates. -/
structure Packet where
  iSPI : Nat
  rSPI : Nat
  version : Nat
  exchange_type : Nat
  flags : Nat
  message_id : Nat
  length : Nat
  payloads : List Payload
  deriving DecidableEq

/-- The outcome of `parse_packet`. -/
inductive PResult where
  | ok (pkt : Packet)
  | err (e : PErr)
  | fuelOut
  deriving DecidableEq

/-- The session attributes `parse_packet` touches: it only ever reads
`ike.SK_ar` (protocol.py line 210) and assigns nothing. -/
structure Session where
  sk_ar : Bytes
  deriving DecidableEq

/-- Package a finished walk into `parse_packet`'s result. -/
def finishWalk (ispi rspi version exch flags msgid plen : Nat)
    (w : WalkResult) : PResult :=
  match w with
  | .done ps => .ok ⟨ispi, rspi, version, exch, flags, msgid, plen, ps⟩
  | .fail e => .err e
  | .fuelOut => .fuelOut

/-- `parse_packet(data, ike)` (protocol.py lines 190-230).  The 28-byte
header is unpacked (shorter input is a `struct.error`).  When the first
payload type is 46 the Encrypted-payload header is unpacked from the
remainder (shorter than 4 bytes is a `struct.error`), `hmac_theirs =
remainder[-16:]` is compared against HMAC-SHA-256 of `raw_data[:-16]`
under `SK_ar` truncated to 16 bytes, and a mismatch fails the assert at
line 215; nothing is ever decrypted (`# TODO: Decrypt`, line 216), and the
loop then walks the same undecrypted `remainder` starting from the
Encrypted payload's `next_payload` byte.  The walk fuel
`remainder.length + 2` covers every terminating run of the unbounded
source loop: an iteration that does not shrink the remainder is never
followed by another one on the same state unless the loop diverges. -/
def parsePacketCore (ike : Session) (data : Bytes) : PResult :=
  if data.length < 28 then .err .malformed
  else
    let remainder := data.drop 28
    if data.getD 16 0 = 46 then
      if remainder.length < 4 then .err .malformed
      else
        if (hmacSha256 ike.sk_ar (data.take (data.length - 16))).take 16 =
            remainder.drop (remainder.length - 16) then
          finishWalk (be64At data 0) (be64At data 8) (data.getD 17 0)
            (data.getD 18 0) (data.getD 19 0) (be32At data 20)
            (be32At data 24)
            (walk (remainder.length + 2) (remainder.getD 0 0) remainder [])
        else .err .integrityCheckFailed
    else
      finishWalk (be64At data 0) (be64At data 8) (data.getD 17 0)
        (data.getD 18 0) (data.getD 19 0) (be32At data 20) (be32At data 24)
        (walk (remainder.length + 2) (data.getD 16 0) remainder [])

/-- `parse_packet` as a transformation of `(data, session)`: the function
body never assigns to `ike`, so the session comes back unchanged. -/
def parsePacket (ike : Session) (data : Bytes) : PResult × Session :=
  (parsePacketCore ike data, ike)

/- ### Claim C3: the inbound integrity check -/

/-- The payload-walking loop can only fail with `malformed`. -/
theorem walk_ne_integrity : ∀ (f np : Nat) (rem : Bytes) (acc : List Payload),
    walk f np rem acc ≠ .fail .integrityCheckFailed := by
  intro f
  induction f with
  | zero => intro np rem acc; simp [walk]
  | succ n ih =>
      intro np rem acc
      simp only [walk]
      by_cases h : np = 0
      · simp [h]
      · simp only [h, if_false]
        cases hp : parsePayload np rem with
        | none => simp
        | some p => exact ih _ _ _

theorem finishWalk_ne_integrity (a b c d e f g : Nat) (w : WalkResult)
    (hw : w ≠ .fail .integrityCheckFailed) :
    finishWalk a b c d e f g w ≠ .err .integrityCheckFailed := by
  cases w <;> simp_all [finishWalk]

/-- The last 16 bytes of the remainder are the last 16 bytes of the whole
packet, once the packet is at least 44 bytes. -/
theorem drop_suffix_16 (data : Bytes) (h : 44 ≤ data.length) :
    (data.drop 28).drop ((data.drop 28).length - 16) =
      data.drop (data.length - 16) := by
  rw [List.drop_drop, List.length_drop]
  congr 1
  omega

/-- C3: on an inbound packet whose first payload type is 46, the receive
path recomputes HMAC-SHA-256 under `SK_ar` over all packet bytes except the
trailing 16, truncates to 16 bytes and compares with the trailing 16 bytes;
it fails with `IntegrityCheckFailed` exactly when they differ, and the
session comes back unchanged. -/
theorem c3_integrity_check (ike : Session) (data : Bytes)
    (h44 : 44 ≤ data.length) (h46 : data.getD 16 0 = 46) :
    ((parsePacket ike data).1 = .err .integrityCheckFailed ↔
      (hmacSha256 ike.sk_ar (data.take (data.length - 16))).take 16 ≠
        data.drop (data.length - 16)) ∧
    (parsePacket ike data).2 = ike := by
  refine ⟨?_, rfl⟩
  show parsePacketCore ike data = _ ↔ _
  have h1 : ¬ data.length < 28 := by omega
  have h4 : ¬ (data.drop 28).length < 4 := by
    rw [List.length_drop]; omega
  rw [parsePacketCore]
  simp only [if_neg h1, h46, if_pos rfl, if_neg h4, drop_suffix_16 data h44]
  by_cases hEq : (hmacSha256 ike.sk_ar (data.take (data.length - 16))).take
      16 = data.drop (data.length - 16)
  · rw [if_pos hEq]
    constructor
    · intro hcontra
      exact absurd hcontra
        (finishWalk_ne_integrity _ _ _ _ _ _ _ _ (walk_ne_integrity _ _ _ _))
    · intro hne
      exact absurd hEq hne
  · rw [if_neg hEq]
    simp [hEq]

/-- C3 witness: a 44-byte all-zero packet with first-payload byte 46 and an
empty `SK_ar`; the theorem applies and the session is untouched. -/
theorem c3_integrity_check_witness :
    (parsePacket ⟨[]⟩
      (List.replicate 16 0 ++ 46 :: List.replicate 27 0)).2 = ⟨[]⟩ :=
  (c3_integrity_check ⟨[]⟩ (List.replicate 16 0 ++ 46 :: List.replicate 27 0)
    (by decide) (by decide)).2

/- ### Claim C7: the critical-flag policy -/

/-- A packet whose first payload has an unknown type (99) with the critical
bit set (flags `0x80`), followed by a Nonce payload. -/
def c7data : Bytes :=
  List.replicate 16 0 ++ [99, 0x20, 34, 8] ++ [0, 0, 0, 0] ++ [0, 0, 0, 44] ++
  [40, 0x80, 0, 8] ++ [0xAA, 0xBB, 0xCC, 0xDD] ++ [0, 0, 0, 8, 1, 2, 3, 4]

/-- C7 counterexample: the receive path does not abort on an unknown
payload whose critical bit is set — `c7data` parses successfully, the
critical payload (flags `0x80`) is kept as a generic payload, and the
chain continues to the following Nonce. -/
theorem c7_critical_ignored_counterexample :
    parsePacketCore ⟨[]⟩ c7data =
      .ok ⟨0, 0, 0x20, 34, 8, 0, 44,
        [⟨99, 40, 0x80, 8, [0xAA, 0xBB, 0xCC, 0xDD, 0, 0, 0, 8, 1, 2, 3, 4],
          none, none⟩,
         ⟨40, 0, 0, 8, [1, 2, 3, 4], none, none⟩]⟩ := by decide

/-- C7 amended: an unknown payload type is dispatched to the generic
payload class and skipped via its length field, and parsing of the rest of
the chain continues — regardless of the critical bit (the flags byte is
never consulted). -/
theorem c7_unknown_skipped (f np : Nat) (rem : Bytes) (acc : List Payload)
    (h33 : np ≠ 33) (h34 : np ≠ 34) (h35 : np ≠ 35) (h36 : np ≠ 36)
    (h39 : np ≠ 39) (h40 : np ≠ 40) (h41 : np ≠ 41) (h44 : np ≠ 44)
    (h45 : np ≠ 45) (hnp : np ≠ 0) (hlen : 4 ≤ rem.length) :
    walk (f + 1) np rem acc =
      walk f (rem.getD 0 0) (rem.drop (be16At rem 2))
        (acc ++ [⟨np, rem.getD 0 0, rem.getD 1 0, be16At rem 2, rem.drop 4,
          none, none⟩]) := by
  have h4 : ¬ rem.length < 4 := by omega
  simp only [walk, if_neg hnp, parsePayload, if_neg h33, if_neg h34,
    if_neg h40, if_neg h41, if_neg h35, parseGeneric, if_neg h4]

/-- C7 witness: one walk step over a concrete unknown payload skips it by
its length field and continues. -/
theorem c7_unknown_skipped_witness :
    walk 2 99 [0, 0, 0, 4] [] = .done [⟨99, 0, 0, 4, [], none, none⟩] := by
  rw [c7_unknown_skipped 1 99 [0, 0, 0, 4] [] (by decide) (by decide)
    (by decide) (by decide) (by decide) (by decide) (by decide) (by decide)
    (by decide) (by decide) (by decide)]
  rfl

/- ### Claim C8: Notify handling -/

/-- An IKE_SA_INIT response (exchange 34, response flag) whose single
payload is a Notify with error message-type 14 (NO_PROPOSAL_CHOSEN). -/
def c8data : Bytes :=
  List.replicate 16 0 ++ [41, 0x20, 34, 0x20] ++ [0, 0, 0, 0] ++
  [0, 0, 0, 40] ++ [0, 0, 0, 12] ++ [0, 0, 0, 14] ++ [9, 9, 9, 9]

/-- C8 counterexample: a response carrying a Notify with error
message-type 14 parses successfully — no `NotifyError` is raised and the
session is not failed; the payload merely records message-type 14 and log
level `logging.ERROR` (40). -/
theorem c8_notify_logged_counterexample :
    parsePacketCore ⟨[]⟩ c8data =
      .ok ⟨0, 0, 0x20, 34, 0x20, 0, 40,
        [⟨41, 0, 0, 12, [9, 9, 9, 9], some 14, some 40⟩]⟩ := by decide

/-- C8 amended: parsing a Notify payload records its message-type and sets
its log level to `logging.ERROR` (40) exactly when the message-type is
below `2^14`, and to `logging.INFO` (20) otherwise; the session is not
failed either way. -/
theorem c8_notify_level (np : Nat) (rem : Bytes) (h : 8 ≤ rem.length) :
    (parseNotify np rem).bind Payload.level =
      some (if be16At rem 6 < 16384 then 40 else 20) ∧
    (parseNotify np rem).bind Payload.messageType = some (be16At rem 6) := by
  have h1 : ¬ rem.length < 4 := by omega
  have h2 : ¬ rem.length - 4 < 4 := by omega
  simp [parseNotify, h1, h2, List.length_drop]

/-- C8 witness: the concrete Notify body with message-type 14 gets log
level `ERROR` (40). -/
theorem c8_notify_level_witness :
    (parseNotify 41 [0, 0, 0, 12, 0, 0, 0, 14]).bind Payload.level =
      some 40 := by
  rw [(c8_notify_level 41 [0, 0, 0, 12, 0, 0, 0, 14] (by decide)).1]
  decide

/- ### Claim C10: termination of the payload walk -/

/-- Every payload parser demands at least the 4 header bytes. -/
theorem parsePayload_some_length (np : Nat) (rem : Bytes) (p : Payload)
    (h : parsePayload np rem = some p) : 4 ≤ rem.length := by
  by_contra hlt
  push_neg at hlt
  have h12 : rem.length < 12 := by omega
  unfold parsePayload at h
  split at h <;>
    simp [parseSA, parseKE, parseNonce, parseNotify, parseIDi, parseGeneric,
      hlt, h12] at h

/-- The claim's precondition, decidably: along the `next_payload` chain,
every payload that parses has a length field of at least 4 (reaching the
chain's end or a parse error counts as good; exhausted fuel does not). -/
def goodChain : Nat → Nat → Bytes → Bool
  | 0, _, _ => false
  | f + 1, np, rem =>
      if np = 0 then true
      else
        match parsePayload np rem with
        | none => true
        | some p =>
            decide (4 ≤ p.length) && goodChain f p.next_payload
              (rem.drop p.length)

/-- A good chain never exhausts the walk's fuel. -/
theorem goodChain_walk : ∀ (f np : Nat) (rem : Bytes) (acc : List Payload),
    goodChain f np rem = true → walk f np rem acc ≠ .fuelOut := by
  intro f
  induction f with
  | zero =>
      intro np rem acc hg
      simp [goodChain] at hg
  | succ n ih =>
      intro np rem acc hg
      simp only [goodChain] at hg
      simp only [walk]
      by_cases h0 : np = 0
      · simp [h0]
      · simp only [h0, if_false] at hg ⊢
        cases hp : parsePayload np rem with
        | none => simp
        | some p =>
            rw [hp] at hg
            simp only [Bool.and_eq_true, decide_eq_true_eq] at hg
            exact ih _ _ _ hg.2

theorem finishWalk_ne_fuelOut (a b c d e f g : Nat) (w : WalkResult)
    (hw : w ≠ .fuelOut) :
    finishWalk a b c d e f g w ≠ .fuelOut := by
  cases w <;> simp_all [finishWalk]

/-- C10: (i) whenever every payload reachable through the `next_payload`
chain has a length field of at least 4, the walk terminates (never runs
out of fuel); (ii) each such step strictly shrinks the remaining buffer;
(iii) `parse_packet` terminates on such buffers, whichever branch it takes;
(iv) a reachable payload with length field 0 (and a nonzero successor)
makes the loop run forever: the walk exhausts any amount of fuel. -/
theorem c10_parse_termination :
    (∀ (f np : Nat) (rem : Bytes) (acc : List Payload),
      goodChain f np rem = true → walk f np rem acc ≠ .fuelOut) ∧
    (∀ (np : Nat) (rem : Bytes) (p : Payload),
      parsePayload np rem = some p → 1 ≤ p.length →
        (rem.drop p.length).length < rem.length) ∧
    (∀ (ike : Session) (data : Bytes),
      goodChain ((data.drop 28).length + 2)
        (if data.getD 16 0 = 46 then (data.drop 28).getD 0 0
          else data.getD 16 0) (data.drop 28) = true →
      parsePacketCore ike data ≠ .fuelOut) ∧
    (∀ (f : Nat) (acc : List Payload),
      walk f 5 [5, 0, 0, 0] acc = .fuelOut) := by
  refine ⟨goodChain_walk, ?_, ?_, ?_⟩
  · intro np rem p hp hl
    have h4 := parsePayload_some_length np rem p hp
    rw [List.length_drop]
    omega
  · intro ike data hg
    rw [parsePacketCore]
    by_cases h28 : data.length < 28
    · simp [h28]
    · rw [if_neg h28]
      by_cases h46 : data.getD 16 0 = 46
      · rw [if_pos h46] at hg ⊢
        by_cases hr4 : (data.drop 28).length < 4
        · rw [if_pos hr4]
          simp
        · rw [if_neg hr4]
          by_cases hm : (hmacSha256 ike.sk_ar
              (data.take (data.length - 16))).take 16 =
              (data.drop 28).drop ((data.drop 28).length - 16)
          · rw [if_pos hm]
            exact finishWalk_ne_fuelOut _ _ _ _ _ _ _ _
              (goodChain_walk _ _ _ _ hg)
          · rw [if_neg hm]
            simp
      · rw [if_neg h46] at hg ⊢
        exact finishWalk_ne_fuelOut _ _ _ _ _ _ _ _
          (goodChain_walk _ _ _ _ hg)
  · intro f
    induction f with
    | zero => intro acc; rfl
    | succ n ih =>
        intro acc
        have hp : parsePayload 5 [5, 0, 0, 0] =
            some ⟨5, 5, 0, 0, [], none, none⟩ := by decide
        have h5 : ¬ (5 : Nat) = 0 := by decide
        simp only [walk, h5, if_false, hp, List.drop_zero]
        exact ih _

/-- C10 witness: a concrete good chain (one payload, length field 4,
terminator) satisfies the precondition and the walk terminates. -/
theorem c10_parse_termination_witness :
    goodChain 6 99 [0, 0, 0, 4] = true ∧
      walk 6 99 [0, 0, 0, 4] [] ≠ .fuelOut :=
  ⟨by decide, c10_parse_termination.1 6 99 [0, 0, 0, 4] [] (by decide)⟩

/- ### Claim C6: the receive path never decrypts -/

/-- An encrypted-looking IKE_AUTH response, without its trailing MAC:
first-payload 46, then the Encrypted payload header `[99, 0, 0, 32]`
(inner next-payload 99, length field 32), 28 bytes standing for the IV and
ciphertext, and 4 trailing bytes that the undecrypted walk will pick up as
a terminal generic payload. -/
def c6pre : Bytes :=
  List.replicate 16 0 ++ [46, 0x20, 35, 0x20] ++ [0, 0, 0, 1] ++
  [0, 0, 0, 80] ++ [99, 0, 0, 32] ++ List.replicate 28 7 ++ [0, 0, 0, 4]

/-- `c6pre` with a valid trailing MAC under `SK_ar = 32 bytes of 0x01`. -/
def c6data : Bytes :=
  c6pre ++ (hmacSha256 (List.replicate 32 1) c6pre).take 16

/-- C6: the integrity check passes, yet nothing is decrypted
(`# TODO: Decrypt`): the walk re-reads the raw remainder from the
Encrypted payload's own header, so the first returned payload's body is
the undecrypted IV/ciphertext bytes (and the trailing MAC), not payloads
parsed from any plaintext. -/
theorem c6_no_decryption :
    parsePacketCore ⟨List.replicate 32 1⟩ c6data =
      .ok ⟨0, 0, 0x20, 35, 0x20, 1, 80,
        [⟨99, 99, 0, 32,
          List.replicate 28 7 ++ ([0, 0, 0, 4] ++
            (hmacSha256 (List.replicate 32 1) c6pre).take 16), none, none⟩,
         ⟨99, 0, 0, 4,
          (hmacSha256 (List.replicate 32 1) c6pre).take 16,
          none, none⟩]⟩ := by
  decide

/- ### Claim C2: the AUTH transcript -/

/-- Ni of the C2 failing session. -/
def c2ni : Bytes := [170, 170, 170, 170]

/-- `self.packets[0].data` after `init()`: the payload bytes only —
`init()` stores the IKE header separately (`packet.header`, protocol.py
lines 49-50) and `ike_auth` signs only `packets[0].data` (line 124). -/
def c2msg1data : Bytes := initPayloadBytes [] [] c2ni

/-- The first message as actually sent on the wire:
`packet.header + packet.data` (protocol.py line 60). -/
def c2msg1wire : Bytes := initPacket 1 [] [] c2ni

/-- SK_pi of the C2 failing session. -/
def c2skpi : Bytes := List.replicate 32 17

/-- Nr of the C2 failing session. -/
def c2nr : Bytes := [85, 85, 85, 85]

set_option maxHeartbeats 4000000 in
/-- C2: the AUTH value the code places in the IKE_AUTH request is
`PRF(PRF(PSK, "Key Pad for IKEv2"), packets[0].data || Nr ||
PRF(SK_pi, IDi_body))[:16]` — but `packets[0].data` is the payload bytes
only: the first message as sent on the wire is 28 bytes longer (its IKE
header), and the AUTH value over the wire message (which the claim and
RFC 7296 Sec. 2.15 prescribe) differs from the one the code computes. -/
theorem c2_auth_transcript_bug :
    (∀ skPi msg1 nr propData : Bytes,
      ((ikeAuthPlain skPi msg1 nr propData).drop 23).take 16 =
        authDataPsk skPi msg1 nr) ∧
    c2msg1wire = c2msg1wire.take 28 ++ c2msg1data ∧
    c2msg1wire.length = 28 + c2msg1data.length ∧
    authDataPsk c2skpi c2msg1data c2nr ≠
      authDataPsk c2skpi c2msg1wire c2nr := by
  refine ⟨?_, rfl, by decide, by decide⟩
  intro skPi msg1 nr propData
  have hd : (ikeAuthPlain skPi msg1 nr propData).drop 23 =
      authDataPsk skPi msg1 nr ++
        payloadHeader 44 0 (propData.length + 4) ++ propData ++
        payloadHeader 45 0 (8 + 16) ++ [1, 0, 0, 0] ++ tsSelector 0 0 ++
        payloadHeader 0 0 (8 + 16) ++ [1, 0, 0, 0] ++ tsSelector 0 0 := rfl
  simp only [List.append_assoc] at hd
  rw [hd,
    show (16 : Nat) = (authDataPsk skPi msg1 nr).length from
      (authDataPsk_length skPi msg1 nr).symm,
    List.take_left]

/-- C2 supporting fact: the theorem's first conjunct at the failing
session's concrete values, pinning where the AUTH bytes sit in the
plaintext. -/
theorem c2_auth_transcript_bug_witness :
    ((ikeAuthPlain c2skpi c2msg1data c2nr []).drop 23).take 16 =
      authDataPsk c2skpi c2msg1data c2nr :=
  c2_auth_transcript_bug.1 c2skpi c2msg1data c2nr []

end Ike
